import Mathlib

set_option maxHeartbeats 1000000

/-!
Shallow embedding of the policy engine of `src/employees.py`: configuration,
payment strategies, bonus strategies, vacation policies, the employee factory,
and the pay/vacation commands with their transaction ledger.

Python floats are modelled by `ℚ`; Python ints by `Int`.  A Python `TypeError`
raised by comparing an `int` with the empty dict that `ConfigLoader.get`
returns for a missing key is modelled by `Except Unit`, with `.error ()` for
the raised exception.  `None` day counts are `Option Int` and Python's
`days or default` truthiness idiom is `pyOr`.
-/

-- ==================== Enums ====================

inductive EmployeeRole where
  | intern
  | manager
  | vice_president
  | developer
  deriving DecidableEq, Repr

inductive EmployeeType where
  | salaried
  | hourly
  | freelancer
  deriving DecidableEq, Repr

inductive TransactionType where
  | vacation
  | vacation_payout
  | payment
  | bonus
  deriving DecidableEq, Repr

-- ==================== Configuration ====================

/-- The configuration document read by `ConfigLoader.get`.  Keys that a policy
reads but that may be absent from the document are `Option`: `none` models the
empty dict `{}` that `ConfigLoader.get` yields for a missing path. -/
structure Config where
  default_days : Int
  payout_days : Int
  manager_max_payout : Option Int
  vp_max_per_request : Option Int
  dev_max_per_request : Option Int
  dev_max_payout : Option Int
  default_hourly_rate : ℚ
  default_monthly_salary : ℚ
  salaried_percentage : ℚ
  hourly_bonus_amount : ℚ
  hourly_hours_threshold : ℚ
  performance : EmployeeType → Option ℚ

/-- The default configuration document written by `ConfigLoader._load_config`.
It has no `vacation.policies.developer` entry and no
`payment.bonus.performance` entry, so those lookups yield `{}`/`none`. -/
def defaultConfig : Config where
  default_days := 25
  payout_days := 5
  manager_max_payout := some 10
  vp_max_per_request := some 5
  dev_max_per_request := none
  dev_max_payout := none
  default_hourly_rate := 50
  default_monthly_salary := 5000
  salaried_percentage := 1/10
  hourly_bonus_amount := 100
  hourly_hours_threshold := 160
  performance := fun _ => none

/-- Python's `days or default` on an optional int: `None` and `0` are falsy. -/
def pyOr (days : Option Int) (dflt : Int) : Int :=
  match days with
  | none => dflt
  | some d => if d = 0 then dflt else d

-- ==================== Strategies as data ====================

inductive PaymentStrategy where
  | salariedPay
  | hourlyPay
  | freelancerPay
  deriving DecidableEq, Repr

inductive BonusStrategy where
  | salariedBonus
  | hourlyBonus
  | noBonus
  | performanceBonus
  | combined (base extra : BonusStrategy)
  deriving DecidableEq, Repr

inductive VacationPolicy where
  | internP
  | managerP
  | vpP
  | developerP
  deriving DecidableEq, Repr

-- ==================== Employee ====================

/-- A project entry: `project.get('amount', 0)` may find no `amount` key,
hence `Option ℚ`. -/
structure Employee where
  name : String
  role : EmployeeRole
  vacation_days : Int
  monthly_salary : Option ℚ
  hourly_rate : Option ℚ
  hours_worked : Option ℚ
  projects : Option (List (Option ℚ))
  payment_strategy : PaymentStrategy
  bonus_strategy : BonusStrategy
  vacation_policy : VacationPolicy
  employee_type : EmployeeType
  deriving DecidableEq, Repr

-- ==================== Payment strategies ====================

/-- `SalariedPaymentStrategy.calculate_payment`. -/
def salariedCalcPayment (cfg : Config) (e : Employee) : ℚ :=
  e.monthly_salary.getD cfg.default_monthly_salary

/-- `HourlyPaymentStrategy.calculate_payment`. -/
def hourlyCalcPayment (e : Employee) : ℚ :=
  e.hourly_rate.getD 0 * e.hours_worked.getD 0

/-- `FreelancerPaymentStrategy.calculate_payment`:
`sum(project.get('amount', 0) for project in projects)`. -/
def freelancerCalcPayment (e : Employee) : ℚ :=
  (e.projects.getD []).foldl (fun acc p => acc + p.getD 0) 0

def calcPayment (cfg : Config) : PaymentStrategy → Employee → ℚ
  | .salariedPay, e => salariedCalcPayment cfg e
  | .hourlyPay, e => hourlyCalcPayment e
  | .freelancerPay, e => freelancerCalcPayment e

-- ==================== Bonus strategies ====================

def calcBonus (cfg : Config) : BonusStrategy → Employee → ℚ → ℚ
  | .salariedBonus, _, base => base * cfg.salaried_percentage
  | .hourlyBonus, e, _ =>
      if e.hours_worked.getD 0 > cfg.hourly_hours_threshold then cfg.hourly_bonus_amount else 0
  | .noBonus, _, _ => 0
  | .performanceBonus, e, base => base * (cfg.performance e.employee_type).getD 0
  | .combined b1 b2, e, base => calcBonus cfg b1 e base + calcBonus cfg b2 e base

-- ==================== Employee methods ====================

/-- `Employee.calculate_payment`. -/
def Employee.calculatePayment (cfg : Config) (e : Employee) : ℚ :=
  calcPayment cfg e.payment_strategy e

/-- `Employee.calculate_bonus`. -/
def Employee.calculateBonus (cfg : Config) (e : Employee) : ℚ :=
  calcBonus cfg e.bonus_strategy e (e.calculatePayment cfg)

/-- `Employee.calculate_total_payment`. -/
def Employee.calculateTotalPayment (cfg : Config) (e : Employee) : ℚ :=
  e.calculatePayment cfg + e.calculateBonus cfg

-- ==================== Decimal rendering of ints (Python str(int)) ====================

def digitCh (d : Nat) : Char :=
  if d = 0 then '0' else if d = 1 then '1' else if d = 2 then '2'
  else if d = 3 then '3' else if d = 4 then '4' else if d = 5 then '5'
  else if d = 6 then '6' else if d = 7 then '7' else if d = 8 then '8' else '9'

def natChars (fuel : Nat) (n : Nat) : List Char :=
  match fuel with
  | 0 => []
  | fuel + 1 =>
      if n < 10 then [digitCh n]
      else natChars fuel (n / 10) ++ [digitCh (n % 10)]

/-- Decimal rendering of a Python int, as interpolated into f-strings. -/
def intStr (i : Int) : String :=
  match i with
  | .ofNat n => ⟨natChars (n + 1) n⟩
  | .negSucc n => ⟨'-' :: natChars (n + 2) (n + 1)⟩

-- ==================== Substring search (Python `in` on str) ====================

def startsWithL : List Char → List Char → Bool
  | [], _ => true
  | _ :: _, [] => false
  | a :: as, b :: bs => a == b && startsWithL as bs

def containsL (pat : List Char) : List Char → Bool
  | [] => startsWithL pat []
  | b :: bs => startsWithL pat (b :: bs) || containsL pat bs

/-- Python `pat in s` for strings. -/
def strContains (s pat : String) : Bool :=
  containsL pat.data s.data

-- ==================== Vacation policy messages ====================

def internMsg : String :=
  "Los pasantes no pueden solicitar vacaciones ni compensación monetaria."

def payoutProcesadoMsg (d rem : Int) : String :=
  "Payout de " ++ intStr d ++ " días procesado. Días restantes: " ++ intStr rem

def payoutFailMsg (avail : Int) : String :=
  "No se puede procesar el payout. Días disponibles: " ++ intStr avail

def vacacionProcesadaMsg (rem : Int) : String :=
  "Vacación procesada. Días restantes: " ++ intStr rem

def noDiasMsg : String :=
  "No hay suficientes días de vacaciones disponibles."

def vpMaxMsg : String :=
  "Máximo 5 días por solicitud para vicepresidentes."

def devVacacionMsg (d rem : Int) : String :=
  "Vacación de " ++ intStr d ++ " días procesada. Días restantes: " ++ intStr rem

def devFailMsg : String :=
  "No cumple con los requisitos para la solicitud de vacaciones."

-- ==================== Vacation policies ====================

/-- `can_take_vacation` of each policy class.  `.error ()` is the `TypeError`
raised when a missing config key (an empty dict) is compared with an int. -/
def canTakeVacationP (cfg : Config) : VacationPolicy → Int → Int → Except Unit Bool
  | .internP, _, _ => .ok false
  | .managerP, bal, d => .ok (decide (bal ≥ d))
  | .vpP, _, d =>
      match cfg.vp_max_per_request with
      | some m => .ok (decide (d ≤ m))
      | none => .error ()
  | .developerP, bal, d =>
      if bal ≥ d then
        match cfg.dev_max_per_request with
        | some m => .ok (decide (d ≤ m))
        | none => .error ()
      else .ok false

/-- `can_take_payout` of each policy class. -/
def canTakePayoutP (cfg : Config) : VacationPolicy → Int → Int → Except Unit Bool
  | .internP, _, _ => .ok false
  | .managerP, bal, d =>
      if bal ≥ d then
        match cfg.manager_max_payout with
        | some m => .ok (decide (d ≤ m))
        | none => .error ()
      else .ok false
  | .vpP, bal, d => .ok (decide (bal ≥ d))
  | .developerP, bal, d =>
      if bal ≥ d then
        match cfg.dev_max_payout with
        | some m => .ok (decide (d ≤ m))
        | none => .error ()
      else .ok false

/-- `process_vacation` of each policy class, acting on the balance
`employee.vacation_days`; returns the outcome message and the new balance. -/
def processVacation (cfg : Config) (policy : VacationPolicy) (bal : Int)
    (payout : Bool) (days : Option Int) : Except Unit (String × Int) :=
  match policy with
  | .internP => .ok (internMsg, bal)
  | .managerP =>
      if payout then
        let d := pyOr days cfg.payout_days
        match canTakePayoutP cfg .managerP bal d with
        | .error e => .error e
        | .ok true => .ok (payoutProcesadoMsg d (bal - d), bal - d)
        | .ok false => .ok (payoutFailMsg bal, bal)
      else
        match canTakeVacationP cfg .managerP bal 1 with
        | .error e => .error e
        | .ok true => .ok (vacacionProcesadaMsg (bal - 1), bal - 1)
        | .ok false => .ok (noDiasMsg, bal)
  | .vpP =>
      if payout then
        let d := pyOr days cfg.payout_days
        match canTakePayoutP cfg .vpP bal d with
        | .error e => .error e
        | .ok true => .ok (payoutProcesadoMsg d (bal - d), bal - d)
        | .ok false => .ok (payoutFailMsg bal, bal)
      else
        match canTakeVacationP cfg .vpP bal 1 with
        | .error e => .error e
        | .ok true => .ok (vacacionProcesadaMsg (bal - 1), bal - 1)
        | .ok false => .ok (vpMaxMsg, bal)
  | .developerP =>
      if payout then
        let d := pyOr days cfg.payout_days
        match canTakePayoutP cfg .developerP bal d with
        | .error e => .error e
        | .ok true => .ok (payoutProcesadoMsg d (bal - d), bal - d)
        | .ok false => .ok (payoutFailMsg bal, bal)
      else
        let d := pyOr days 1
        match canTakeVacationP cfg .developerP bal d with
        | .error e => .error e
        | .ok true => .ok (devVacacionMsg d (bal - d), bal - d)
        | .ok false => .ok (devFailMsg, bal)

/-- `Employee.request_vacation`: delegate to the assigned policy, mutating
`vacation_days`. -/
def Employee.requestVacation (cfg : Config) (e : Employee) (payout : Bool)
    (days : Option Int) : Except Unit (String × Employee) :=
  match processVacation cfg e.vacation_policy e.vacation_days payout days with
  | .error err => .error err
  | .ok (msg, bal) => .ok (msg, { e with vacation_days := bal })

-- ==================== Factory ====================

/-- `EmployeeFactory.create_employee`.  The `Option` arguments are the
optional kwargs (`kwargs.get(key, default)`). -/
def createEmployee (cfg : Config) (name : String) (role : EmployeeRole)
    (empType : EmployeeType) (monthly_salary : Option ℚ) (hourly_rate : Option ℚ)
    (hours_worked : Option ℚ) (projects : Option (List (Option ℚ))) : Employee :=
  let base : Employee :=
    { name := name
      role := role
      vacation_days := cfg.default_days
      monthly_salary := none
      hourly_rate := none
      hours_worked := none
      projects := none
      payment_strategy := .salariedPay
      bonus_strategy := .noBonus
      vacation_policy := .internP
      employee_type := empType }
  let typed : Employee :=
    match empType with
    | .salaried =>
        { base with
          monthly_salary := some (monthly_salary.getD cfg.default_monthly_salary)
          payment_strategy := .salariedPay
          bonus_strategy := .combined .salariedBonus .performanceBonus }
    | .hourly =>
        { base with
          hourly_rate := some (hourly_rate.getD cfg.default_hourly_rate)
          hours_worked := some (hours_worked.getD 0)
          payment_strategy := .hourlyPay
          bonus_strategy := .combined .hourlyBonus .performanceBonus }
    | .freelancer =>
        { base with
          projects := some (projects.getD [])
          payment_strategy := .freelancerPay
          bonus_strategy := .performanceBonus }
  match role with
  | .intern => { typed with vacation_policy := .internP, bonus_strategy := .noBonus }
  | .manager => { typed with vacation_policy := .managerP }
  | .vice_president => { typed with vacation_policy := .vpP }
  | .developer => { typed with vacation_policy := .developerP }

-- ==================== Transactions and commands ====================

structure Transaction where
  employee_name : String
  transaction_type : TransactionType
  amount : ℚ
  description : String
  deriving DecidableEq, Repr

def ratStr (q : ℚ) : String := toString q

def pagoTotalMsg (total : ℚ) : String :=
  "Pago total: $" ++ ratStr total

def bonificacionMsg (bonus : ℚ) : String :=
  "Bonificación: $" ++ ratStr bonus

def paySummaryMsg (name : String) (total bonus : ℚ) : String :=
  "Pagando a " ++ name ++ ": $" ++ ratStr total ++ " (incluye bonificación: $" ++ ratStr bonus ++ ")"

/-- `PayEmployeeCommand.execute`: returns the summary and the new ledger. -/
def payEmployeeExecute (cfg : Config) (e : Employee) (history : List Transaction) :
    String × List Transaction :=
  let total := e.calculateTotalPayment cfg
  let bonus := e.calculateBonus cfg
  let h1 := history ++
    [{ employee_name := e.name
       transaction_type := .payment
       amount := total
       description := pagoTotalMsg total }]
  let h2 :=
    if bonus > 0 then
      h1 ++
        [{ employee_name := e.name
           transaction_type := .bonus
           amount := bonus
           description := bonificacionMsg bonus }]
    else h1
  (paySummaryMsg e.name total bonus, h2)

/-- The success sniffing of `VacationCommand.execute`:
`"procesado" in result or "procesada" in result`. -/
def vacSuccessCheck (result : String) : Bool :=
  strContains result "procesado" || strContains result "procesada"

/-- `VacationCommand.execute`: delegate to the policy, then append a
transaction when the returned message carries a success marker. -/
def vacationCommandExecute (cfg : Config) (e : Employee) (payout : Bool)
    (days : Option Int) (history : List Transaction) :
    Except Unit (String × Employee × List Transaction) :=
  match e.requestVacation cfg payout days with
  | .error err => .error err
  | .ok (result, e') =>
      if vacSuccessCheck result then
        let days_used := pyOr days (if payout then cfg.payout_days else 1)
        .ok (result, e', history ++
          [{ employee_name := e.name
             transaction_type := if payout then .vacation_payout else .vacation
             amount := (days_used : ℚ)
             description := result }])
      else
        .ok (result, e', history)

-- ==================== Derived views of processVacation ====================

/-- The day count a policy effectively works with: the Python
`days or default` after defaulting, with Manager and Vice President time-off
hard-coded to 1 day. -/
def effDays (cfg : Config) (policy : VacationPolicy) (payout : Bool)
    (days : Option Int) : Int :=
  if payout then pyOr days cfg.payout_days
  else
    match policy with
    | .developerP => pyOr days 1
    | _ => 1

/-- The capability check `process_vacation` consults: `can_take_payout` for
payouts, `can_take_vacation` otherwise. -/
def canTakeCheckP (cfg : Config) (policy : VacationPolicy) (bal : Int)
    (payout : Bool) (d : Int) : Except Unit Bool :=
  if payout then canTakePayoutP cfg policy bal d
  else canTakeVacationP cfg policy bal d

def succMsgOf (policy : VacationPolicy) (payout : Bool) (d rem : Int) : String :=
  if payout then payoutProcesadoMsg d rem
  else
    match policy with
    | .developerP => devVacacionMsg d rem
    | _ => vacacionProcesadaMsg rem

def failMsgOf (policy : VacationPolicy) (payout : Bool) (bal : Int) : String :=
  if payout then payoutFailMsg bal
  else
    match policy with
    | .managerP => noDiasMsg
    | .vpP => vpMaxMsg
    | .developerP => devFailMsg
    | .internP => internMsg

/-- Case analysis of a non-raising `process_vacation` run: the intern fixed
reply, a success with the effective day count deducted, or a rejection that
leaves the balance alone. -/
theorem processVacation_spec (cfg : Config) (policy : VacationPolicy) (bal : Int)
    (payout : Bool) (days : Option Int) (msg : String) (b' : Int)
    (h : processVacation cfg policy bal payout days = .ok (msg, b')) :
    (policy = .internP ∧ msg = internMsg ∧ b' = bal)
    ∨ (policy ≠ .internP
        ∧ canTakeCheckP cfg policy bal payout (effDays cfg policy payout days) = .ok true
        ∧ msg = succMsgOf policy payout (effDays cfg policy payout days)
            (bal - effDays cfg policy payout days)
        ∧ b' = bal - effDays cfg policy payout days)
    ∨ (policy ≠ .internP
        ∧ canTakeCheckP cfg policy bal payout (effDays cfg policy payout days) = .ok false
        ∧ msg = failMsgOf policy payout bal
        ∧ b' = bal) := by
  cases policy <;> cases payout <;>
    simp only [processVacation, canTakeCheckP, effDays, succMsgOf, failMsgOf] at h ⊢ <;>
    (repeat' split at h) <;> (try simp_all) <;>
    (try (obtain ⟨hm, hb⟩ := h; subst hm; subst hb; rfl))

-- ==================== Substring lemmas ====================

theorem startsWithL_self_append (p y : List Char) : startsWithL p (p ++ y) = true := by
  induction p with
  | nil => rfl
  | cons a as ih => simp [startsWithL, ih]

theorem startsWithL_append_of (p l y : List Char) (h : startsWithL p l = true) :
    startsWithL p (l ++ y) = true := by
  induction p generalizing l with
  | nil => rfl
  | cons a as ih =>
      cases l with
      | nil => simp [startsWithL] at h
      | cons b bs =>
          simp only [startsWithL, Bool.and_eq_true] at h
          simp [startsWithL, h.1, ih bs h.2]

theorem containsL_nil_pat (l : List Char) : containsL [] l = true := by
  cases l <;> simp [containsL, startsWithL]

theorem containsL_self_append (p y : List Char) : containsL p (p ++ y) = true := by
  cases p with
  | nil => simpa using containsL_nil_pat y
  | cons a as =>
      simp only [containsL, List.cons_append, Bool.or_eq_true]
      left
      exact startsWithL_self_append (a :: as) y

theorem containsL_append_left (x : List Char) {p l : List Char}
    (h : containsL p l = true) : containsL p (x ++ l) = true := by
  induction x with
  | nil => simpa using h
  | cons c xs ih => simp [containsL, ih]

theorem containsL_append_right {p l : List Char} (y : List Char)
    (h : containsL p l = true) : containsL p (l ++ y) = true := by
  induction l with
  | nil =>
      cases p with
      | nil => simpa using containsL_nil_pat y
      | cons a as => simp [containsL, startsWithL] at h
  | cons b bs ih =>
      simp only [containsL, Bool.or_eq_true] at h
      rcases h with h | h
      · simp only [List.cons_append, containsL, Bool.or_eq_true]
        left
        exact startsWithL_append_of p (b :: bs) y h
      · simp [containsL, ih h]

theorem containsL_mid (x p y : List Char) : containsL p (x ++ (p ++ y)) = true :=
  containsL_append_left x (containsL_self_append p y)

theorem startsWithL_mem {p l : List Char} (h : startsWithL p l = true) :
    ∀ c ∈ p, c ∈ l := by
  induction p generalizing l with
  | nil => intro c hc; simp at hc
  | cons a as ih =>
      cases l with
      | nil => simp [startsWithL] at h
      | cons b bs =>
          simp only [startsWithL, Bool.and_eq_true, beq_iff_eq] at h
          intro c hc
          rcases List.mem_cons.mp hc with rfl | hc
          · simp [h.1]
          · exact List.mem_cons_of_mem _ (ih h.2 c hc)

theorem containsL_mem {p l : List Char} (h : containsL p l = true) :
    ∀ c ∈ p, c ∈ l := by
  induction l with
  | nil =>
      cases p with
      | nil => intro c hc; simp at hc
      | cons a as => simp [containsL, startsWithL] at h
  | cons b bs ih =>
      simp only [containsL, Bool.or_eq_true] at h
      rcases h with h | h
      · exact startsWithL_mem h
      · exact fun c hc => List.mem_cons_of_mem _ (ih h c hc)

theorem startsWithL_split (ps : List Char) (c : Char) (lit num : List Char)
    (h : startsWithL (ps ++ [c]) (lit ++ num) = true) :
    startsWithL (ps ++ [c]) lit = true ∨ c ∈ num := by
  induction ps generalizing lit with
  | nil =>
      cases lit with
      | nil =>
          right
          exact startsWithL_mem h c (by simp)
      | cons y lit2 =>
          left
          simp only [List.nil_append, startsWithL, Bool.and_eq_true] at h ⊢
          exact ⟨h.1, trivial⟩
  | cons a as ih =>
      cases lit with
      | nil =>
          right
          exact startsWithL_mem h c (by simp)
      | cons y lit2 =>
          simp only [List.cons_append, startsWithL, Bool.and_eq_true] at h
          rcases ih lit2 h.2 with hs | hm
          · left
            simp [startsWithL, h.1, hs]
          · right
            exact hm

theorem containsL_split (ps : List Char) (c : Char) (lit num : List Char)
    (h : containsL (ps ++ [c]) (lit ++ num) = true) :
    containsL (ps ++ [c]) lit = true ∨ c ∈ num := by
  induction lit with
  | nil =>
      right
      exact containsL_mem h c (by simp)
  | cons y lit2 ih =>
      simp only [List.cons_append, containsL, Bool.or_eq_true] at h
      rcases h with h | h
      · rcases startsWithL_split ps c (y :: lit2) num (by simpa using h) with hs | hm
        · left
          simp [containsL, hs]
        · right
          exact hm
      · rcases ih h with hs | hm
        · left
          simp [containsL, hs]
        · right
          exact hm

-- ==================== Digit-character lemmas ====================

theorem digitCh_isDigit (d : Nat) : (digitCh d).isDigit = true := by
  unfold digitCh
  repeat' split
  all_goals decide

theorem natChars_isDigit (fuel : Nat) : ∀ n, ∀ c ∈ natChars fuel n, c.isDigit = true := by
  induction fuel with
  | zero => intro n c hc; simp [natChars] at hc
  | succ fuel ih =>
      intro n c hc
      simp only [natChars] at hc
      split at hc
      · simp only [List.mem_singleton] at hc
        subst hc
        exact digitCh_isDigit n
      · rcases List.mem_append.mp hc with hc | hc
        · exact ih _ c hc
        · simp only [List.mem_singleton] at hc
          subst hc
          exact digitCh_isDigit _

theorem intStr_mem (i : Int) (c : Char) (h : c ∈ (intStr i).data) :
    c.isDigit = true ∨ c = '-' := by
  cases i with
  | ofNat n => exact Or.inl (natChars_isDigit _ _ c h)
  | negSucc n =>
      rcases List.mem_cons.mp h with rfl | h
      · exact Or.inr rfl
      · exact Or.inl (natChars_isDigit _ _ c h)

-- ==================== Success-marker lemmas ====================

theorem strContains_append_left (x s pat : String) (h : strContains s pat = true) :
    strContains (x ++ s) pat = true := by
  unfold strContains at h ⊢
  rw [String.data_append]
  exact containsL_append_left _ h

theorem strContains_append_right (s y pat : String) (h : strContains s pat = true) :
    strContains (s ++ y) pat = true := by
  unfold strContains at h ⊢
  rw [String.data_append]
  exact containsL_append_right _ h

theorem payoutProcesadoMsg_marker (d rem : Int) :
    strContains (payoutProcesadoMsg d rem) "procesado" = true := by
  unfold payoutProcesadoMsg
  exact strContains_append_right _ _ _ (strContains_append_left _ _ _ (by decide))

theorem vacacionProcesadaMsg_marker (rem : Int) :
    strContains (vacacionProcesadaMsg rem) "procesada" = true := by
  unfold vacacionProcesadaMsg
  exact strContains_append_right _ _ _ (by decide)

theorem devVacacionMsg_marker (d rem : Int) :
    strContains (devVacacionMsg d rem) "procesada" = true := by
  unfold devVacacionMsg
  exact strContains_append_right _ _ _ (strContains_append_left _ _ _ (by decide))

theorem payoutFailMsg_no_marker_o (b : Int) :
    strContains (payoutFailMsg b) "procesado" = false := by
  cases hc : strContains (payoutFailMsg b) "procesado" with
  | false => rfl
  | true =>
      exfalso
      unfold strContains payoutFailMsg at hc
      rw [String.data_append] at hc
      have hpat : ("procesado" : String).data = "procesad".data ++ ['o'] := by decide
      rw [hpat] at hc
      rcases containsL_split _ _ _ _ hc with h | h
      · exact absurd h (by decide)
      · rcases intStr_mem b 'o' h with hd | hd
        · exact absurd hd (by decide)
        · exact absurd hd (by decide)

theorem payoutFailMsg_no_marker_a (b : Int) :
    strContains (payoutFailMsg b) "procesada" = false := by
  cases hc : strContains (payoutFailMsg b) "procesada" with
  | false => rfl
  | true =>
      exfalso
      unfold strContains payoutFailMsg at hc
      rw [String.data_append] at hc
      have hpat : ("procesada" : String).data = "procesad".data ++ ['a'] := by decide
      rw [hpat] at hc
      rcases containsL_split _ _ _ _ hc with h | h
      · exact absurd h (by decide)
      · rcases intStr_mem b 'a' h with hd | hd
        · exact absurd hd (by decide)
        · exact absurd hd (by decide)

theorem succMsgOf_marker (policy : VacationPolicy) (payout : Bool) (d rem : Int) :
    vacSuccessCheck (succMsgOf policy payout d rem) = true := by
  unfold vacSuccessCheck succMsgOf
  cases payout with
  | true => simp [payoutProcesadoMsg_marker]
  | false => cases policy <;> simp [vacacionProcesadaMsg_marker, devVacacionMsg_marker]

theorem failMsgOf_no_marker (policy : VacationPolicy) (payout : Bool) (bal : Int) :
    vacSuccessCheck (failMsgOf policy payout bal) = false := by
  unfold vacSuccessCheck failMsgOf
  cases payout with
  | true => simp [payoutFailMsg_no_marker_o, payoutFailMsg_no_marker_a]
  | false =>
      rw [if_neg (by decide : ¬ (false = true))]
      cases policy <;> decide

theorem internMsg_no_marker : vacSuccessCheck internMsg = false := by decide

-- ==================== Small helpers ====================

theorem pyOr_ne_zero (days : Option Int) (dflt : Int) (h : dflt ≠ 0) :
    pyOr days dflt ≠ 0 := by
  cases days with
  | none => simpa [pyOr]
  | some d =>
      by_cases hd : d = 0 <;> simp [pyOr, hd, h]

theorem effDays_ne_zero (cfg : Config) (policy : VacationPolicy) (payout : Bool)
    (days : Option Int) (h : cfg.payout_days ≠ 0) :
    effDays cfg policy payout days ≠ 0 := by
  unfold effDays
  cases payout with
  | true => simpa using pyOr_ne_zero days _ h
  | false =>
      cases policy
      · simp
      · simp
      · simp
      · exact pyOr_ne_zero days 1 (by decide)

theorem canTakeCheck_true_le (cfg : Config) (policy : VacationPolicy) (bal : Int)
    (payout : Bool) (d : Int) (hnvp : policy = .vpP → payout = true)
    (h : canTakeCheckP cfg policy bal payout d = .ok true) : d ≤ bal := by
  cases policy <;> cases payout <;>
    simp only [canTakeCheckP, canTakeVacationP, canTakePayoutP, if_true, if_false] at h <;>
    (repeat' split at h) <;> simp_all

theorem pyOr_some_zero : pyOr (some 0) = pyOr none := by
  funext x
  simp [pyOr]

/-- Full case analysis of a non-raising `VacationCommand.execute`: the policy
result is passed through, the employee is updated to the policy's new balance,
and the ledger is extended exactly when the message carries a success marker. -/
theorem vacationCommandExecute_spec (cfg : Config) (e : Employee) (payout : Bool)
    (days : Option Int) (h : List Transaction) (msg : String) (e' : Employee)
    (h' : List Transaction)
    (hex : vacationCommandExecute cfg e payout days h = .ok (msg, e', h')) :
    ∃ b', processVacation cfg e.vacation_policy e.vacation_days payout days = .ok (msg, b')
      ∧ e' = { e with vacation_days := b' }
      ∧ ((vacSuccessCheck msg = true
            ∧ h' = h ++ [Transaction.mk e.name
                (if payout then .vacation_payout else .vacation)
                ((pyOr days (if payout then cfg.payout_days else 1) : Int) : ℚ) msg])
         ∨ (vacSuccessCheck msg = false ∧ h' = h)) := by
  unfold vacationCommandExecute Employee.requestVacation at hex
  cases hp : processVacation cfg e.vacation_policy e.vacation_days payout days with
  | error err =>
      rw [hp] at hex
      exact absurd hex (by simp)
  | ok r =>
      obtain ⟨m, b'⟩ := r
      rw [hp] at hex
      dsimp only at hex
      by_cases hchk : vacSuccessCheck m = true
      · rw [if_pos hchk] at hex
        simp only [Except.ok.injEq, Prod.mk.injEq] at hex
        obtain ⟨hm, he', hh⟩ := hex
        subst hm
        exact ⟨b', rfl, he'.symm, Or.inl ⟨hchk, hh.symm⟩⟩
      · rw [if_neg hchk] at hex
        simp only [Except.ok.injEq, Prod.mk.injEq] at hex
        obtain ⟨hm, he', hh⟩ := hex
        subst hm
        exact ⟨b', rfl, he'.symm, Or.inr ⟨Bool.not_eq_true _ ▸ hchk, hh.symm⟩⟩

-- ==================== Claim theorems ====================

/-- C1 counterexample: a Vice President time-off request at balance 0 is
accepted (the VP policy checks only the per-request cap, never the balance)
and drives `vacation_days` to -1, so the claimed non-negativity invariant is
false exactly at the input the claim singles out. -/
theorem vp_timeoff_zero_balance_goes_negative :
    processVacation defaultConfig .vpP 0 false none
      = .ok (vacacionProcesadaMsg (-1), -1) ∧ ((-1 : Int) < 0) :=
  ⟨rfl, by decide⟩

/-- C1 (amended): for every configuration and every `process_vacation` call
other than a Vice President time-off, a non-negative `vacation_days` stays
non-negative, and the balance is either left untouched (rejection, never
clamped) or decremented by exactly the effective day count.  A VP time-off
instead deducts 1 day with no balance check, so at balance 0 it reaches -1. -/
theorem processVacation_nonneg (cfg : Config) (policy : VacationPolicy) (bal : Int)
    (payout : Bool) (days : Option Int) (msg : String) (b' : Int)
    (hbal : 0 ≤ bal) (hvp : policy = .vpP → payout = true)
    (hex : processVacation cfg policy bal payout days = .ok (msg, b')) :
    0 ≤ b' ∧ (b' = bal ∨ b' = bal - effDays cfg policy payout days) := by
  rcases processVacation_spec _ _ _ _ _ _ _ hex with
    ⟨_, _, rfl⟩ | ⟨_, hck, _, rfl⟩ | ⟨_, _, _, rfl⟩
  · exact ⟨hbal, Or.inl rfl⟩
  · have hle := canTakeCheck_true_le cfg policy bal payout _ hvp hck
    exact ⟨by omega, Or.inr rfl⟩
  · exact ⟨hbal, Or.inl rfl⟩

/-- Witness for C1 (amended): a Manager time-off request at balance 0. -/
theorem processVacation_nonneg_witness :
    (0 : Int) ≤ 0 ∧ ((0 : Int) = 0 ∨ (0 : Int) = 0 - effDays defaultConfig .managerP false none) :=
  processVacation_nonneg defaultConfig .managerP 0 false none noDiasMsg 0
    (by decide) (by decide) rfl

/-- C2 counterexample: a Manager time-off request with an explicit day count
of 30 at balance 25 decreases the balance (the policy always checks 1 day for
time-off), even though `can_take_vacation(employee, 30)` is false. -/
theorem manager_timeoff_ignores_day_count :
    processVacation defaultConfig .managerP 25 false (some 30)
      = .ok (vacacionProcesadaMsg 24, 24)
    ∧ ((24 : Int) < 25)
    ∧ canTakeVacationP defaultConfig .managerP 25 30 = .ok false :=
  ⟨rfl, by decide, rfl⟩

/-- C2 (amended): whenever `process_vacation` decreases the balance, the
corresponding capability check succeeds for the day count the policy actually
used: the defaulted payout count for payouts, the defaulted explicit count for
Developer time-off, and the hard-coded 1 for Manager and VP time-off. -/
theorem processVacation_decrease_implies_check (cfg : Config)
    (policy : VacationPolicy) (bal : Int) (payout : Bool) (days : Option Int)
    (msg : String) (b' : Int)
    (hex : processVacation cfg policy bal payout days = .ok (msg, b'))
    (hdec : b' < bal) :
    canTakeCheckP cfg policy bal payout (effDays cfg policy payout days) = .ok true := by
  rcases processVacation_spec _ _ _ _ _ _ _ hex with
    ⟨_, _, rfl⟩ | ⟨_, hck, _, rfl⟩ | ⟨_, _, _, rfl⟩
  · exact absurd hdec (lt_irrefl _)
  · exact hck
  · exact absurd hdec (lt_irrefl _)

/-- Witness for C2 (amended): a Manager time-off at balance 25. -/
theorem processVacation_decrease_implies_check_witness :
    canTakeCheckP defaultConfig .managerP 25 false
      (effDays defaultConfig .managerP false none) = .ok true :=
  processVacation_decrease_implies_check defaultConfig .managerP 25 false none
    (vacacionProcesadaMsg 24) 24 rfl (by decide)

/-- C4 counterexample: under the default configuration a Vice President
6-day time-off request is NOT rejected: the policy ignores the day count,
checks 1 ≤ max_per_request, and deducts exactly 1 day from balance 25. -/
theorem vp_six_day_timeoff_not_rejected :
    processVacation defaultConfig .vpP 25 false (some 6)
      = .ok (vacacionProcesadaMsg 24, 24) ∧ ((24 : Int) ≠ 25) :=
  ⟨rfl, by decide⟩

/-- C4 (amended): under the default configuration, a VP time-off request with
days=6 at any balance succeeds and deducts exactly 1 day, because
`process_vacation` ignores the explicit day count and checks
`can_take_vacation(employee, 1)`; the check `can_take_vacation(employee, 6)`
itself returns false (6 > max_per_request = 5). -/
theorem vp_six_day_timeoff (bal : Int) :
    processVacation defaultConfig .vpP bal false (some 6)
      = .ok (vacacionProcesadaMsg (bal - 1), bal - 1)
    ∧ canTakeVacationP defaultConfig .vpP bal 6 = .ok false :=
  ⟨rfl, rfl⟩

/-- C6: the Manager default-configuration scenario: a fresh employee starts at
25 days; a 1-day time-off leaves 24 with a success message containing "24";
a 10-day payout leaves 14; a 20-day payout is rejected leaving 14. -/
theorem manager_default_scenario :
    (createEmployee defaultConfig "Alice" .manager .salaried none none none none).vacation_days = 25
    ∧ processVacation defaultConfig .managerP 25 false none = .ok (vacacionProcesadaMsg 24, 24)
    ∧ strContains (vacacionProcesadaMsg 24) "24" = true
    ∧ processVacation defaultConfig .managerP 24 true (some 10) = .ok (payoutProcesadoMsg 10 14, 14)
    ∧ processVacation defaultConfig .managerP 14 true (some 20) = .ok (payoutFailMsg 14, 14) :=
  ⟨rfl, rfl, by decide, rfl, rfl⟩

/-- C8: `calculate_total_payment` is definitionally the sum of
`calculate_payment` and `calculate_bonus`, for every employee and every
configuration. -/
theorem calculateTotalPayment_eq (cfg : Config) (e : Employee) :
    e.calculateTotalPayment cfg = e.calculatePayment cfg + e.calculateBonus cfg :=
  rfl

/-- C9: every factory-created Intern gets the `NoBonus` strategy regardless of
employee type, so its bonus is 0 under every configuration. -/
theorem intern_bonus_zero (cfg : Config) (name : String) (empType : EmployeeType)
    (ms hr hw : Option ℚ) (ps : Option (List (Option ℚ))) :
    (createEmployee cfg name .intern empType ms hr hw ps).calculateBonus cfg = 0 := by
  cases empType <;> rfl

theorem strContains_append_self (x pat : String) : strContains (x ++ pat) pat = true := by
  unfold strContains
  rw [String.data_append]
  refine containsL_append_left _ ?_
  have hself := containsL_self_append pat.data []
  rwa [List.append_nil] at hself

/-- C7: every pay-command execution appends exactly one Payment transaction
whose amount is the total (base + bonus), appends one Bonus transaction iff
the bonus is strictly positive, and returns a summary mentioning both
amounts. -/
theorem pay_command_records (cfg : Config) (e : Employee) (h : List Transaction) :
    payEmployeeExecute cfg e h
      = (paySummaryMsg e.name (e.calculateTotalPayment cfg) (e.calculateBonus cfg),
         h ++ [Transaction.mk e.name .payment (e.calculateTotalPayment cfg)
                 (pagoTotalMsg (e.calculateTotalPayment cfg))]
           ++ (if e.calculateBonus cfg > 0 then
                 [Transaction.mk e.name .bonus (e.calculateBonus cfg)
                    (bonificacionMsg (e.calculateBonus cfg))]
               else []))
    ∧ strContains (paySummaryMsg e.name (e.calculateTotalPayment cfg) (e.calculateBonus cfg))
        (ratStr (e.calculateTotalPayment cfg)) = true
    ∧ strContains (paySummaryMsg e.name (e.calculateTotalPayment cfg) (e.calculateBonus cfg))
        (ratStr (e.calculateBonus cfg)) = true := by
  refine ⟨?_, ?_, ?_⟩
  · unfold payEmployeeExecute
    by_cases hb : e.calculateBonus cfg > 0
    · simp only [if_pos hb]
    · simp only [if_neg hb, List.append_nil]
  · unfold paySummaryMsg
    exact strContains_append_right _ _ _ (strContains_append_right _ _ _
      (strContains_append_right _ _ _ (strContains_append_self _ _)))
  · unfold paySummaryMsg
    exact strContains_append_right _ _ _ (strContains_append_self _ _)

/-- C3 counterexample: a vacation command for a Manager with payout=false and
explicit days=3 appends a transaction of amount 3 while the policy deducts
only 1 day (balance 25 → 24). -/
theorem vacation_command_amount_mismatch :
    vacationCommandExecute defaultConfig
        (createEmployee defaultConfig "Bob" .manager .salaried none none none none)
        false (some 3) []
      = .ok (vacacionProcesadaMsg 24,
          { createEmployee defaultConfig "Bob" .manager .salaried none none none none with
              vacation_days := 24 },
          [Transaction.mk "Bob" .vacation ((3 : Int) : ℚ) (vacacionProcesadaMsg 24)])
    ∧ (createEmployee defaultConfig "Bob" .manager .salaried none none none none).vacation_days = 25
    ∧ ((3 : Int) : ℚ) ≠ (((25 : Int) - 24 : Int) : ℚ) :=
  ⟨rfl, rfl, by decide⟩

/-- C3 (amended): when a vacation command appends a transaction its amount is
the explicit nonzero day count, else the configured payout days for payouts,
else 1; this equals the days actually deducted for payouts and for Developer
time-off, while Manager and VP time-off always deduct exactly 1 day whatever
day count was supplied. -/
theorem vacation_command_amount (cfg : Config) (e : Employee) (payout : Bool)
    (days : Option Int) (h : List Transaction) (msg : String) (e' : Employee)
    (t : Transaction)
    (hex : vacationCommandExecute cfg e payout days h = .ok (msg, e', h ++ [t])) :
    t.amount = ((pyOr days (if payout then cfg.payout_days else 1) : Int) : ℚ)
    ∧ e.vacation_days - e'.vacation_days = effDays cfg e.vacation_policy payout days
    ∧ ((payout = true ∨ e.vacation_policy = .developerP) →
        ((e.vacation_days - e'.vacation_days : Int) : ℚ) = t.amount) := by
  obtain ⟨b', hp, he', hcase⟩ := vacationCommandExecute_spec _ _ _ _ _ _ _ _ hex
  rcases hcase with ⟨hchk, hh⟩ | ⟨hchk, hh⟩
  · have ht : t = Transaction.mk e.name (if payout then .vacation_payout else .vacation)
        ((pyOr days (if payout then cfg.payout_days else 1) : Int) : ℚ) msg := by
      have hcan := List.append_cancel_left hh
      simpa using hcan
    rcases processVacation_spec _ _ _ _ _ _ _ hp with
      ⟨_, hmsg, rfl⟩ | ⟨hni, hck, hmsg, hb'⟩ | ⟨hni, hck, hmsg, hb'⟩
    · rw [hmsg, internMsg_no_marker] at hchk
      exact absurd hchk (by decide)
    · have hvd : e'.vacation_days = e.vacation_days - effDays cfg e.vacation_policy payout days := by
        rw [he', hb']
      refine ⟨by rw [ht], by omega, ?_⟩
      intro hcase2
      have heff : effDays cfg e.vacation_policy payout days
          = pyOr days (if payout then cfg.payout_days else 1) := by
        rcases hcase2 with rfl | hdev
        · rfl
        · cases payout
          · rw [hdev]
            rfl
          · rfl
      rw [ht]
      rw [show e.vacation_days - e'.vacation_days = effDays cfg e.vacation_policy payout days by omega]
      rw [heff]
    · rw [hmsg, failMsgOf_no_marker] at hchk
      exact absurd hchk (by decide)
  · exact absurd hh (by simp)

/-- Witness for C3 (amended): a Manager 7-day payout at balance 25. -/
theorem vacation_command_amount_witness :
    (Transaction.mk "Bob" .vacation_payout ((7 : Int) : ℚ) (payoutProcesadoMsg 7 18)).amount
      = ((pyOr (some 7) (if true then defaultConfig.payout_days else 1) : Int) : ℚ)
    ∧ (createEmployee defaultConfig "Bob" .manager .salaried none none none none).vacation_days
        - ({ createEmployee defaultConfig "Bob" .manager .salaried none none none none with
              vacation_days := 18 } : Employee).vacation_days
      = effDays defaultConfig
          (createEmployee defaultConfig "Bob" .manager .salaried none none none none).vacation_policy
          true (some 7)
    ∧ ((true = true ∨ (createEmployee defaultConfig "Bob" .manager .salaried none none none none).vacation_policy = .developerP) →
        (((createEmployee defaultConfig "Bob" .manager .salaried none none none none).vacation_days
            - ({ createEmployee defaultConfig "Bob" .manager .salaried none none none none with
                  vacation_days := 18 } : Employee).vacation_days : Int) : ℚ)
          = (Transaction.mk "Bob" .vacation_payout ((7 : Int) : ℚ) (payoutProcesadoMsg 7 18)).amount) :=
  vacation_command_amount defaultConfig
    (createEmployee defaultConfig "Bob" .manager .salaried none none none none)
    true (some 7) [] (payoutProcesadoMsg 7 18)
    { createEmployee defaultConfig "Bob" .manager .salaried none none none none with
        vacation_days := 18 }
    (Transaction.mk "Bob" .vacation_payout ((7 : Int) : ℚ) (payoutProcesadoMsg 7 18))
    (by rfl)

/-- C5: a single vacation command execution appends a transaction if and only
if the policy call it delegated to changed the employee's balance, for every
configuration whose payout-days setting is nonzero (the default is 5); hence
every recorded Vacation/VacationPayout transaction corresponds to an actual
balance change. -/
theorem vacation_append_iff_balance_change (cfg : Config) (e : Employee)
    (payout : Bool) (days : Option Int) (h : List Transaction) (msg : String)
    (e' : Employee) (h' : List Transaction)
    (hpd : cfg.payout_days ≠ 0)
    (hex : vacationCommandExecute cfg e payout days h = .ok (msg, e', h')) :
    h' ≠ h ↔ e'.vacation_days ≠ e.vacation_days := by
  obtain ⟨b', hp, he', hcase⟩ := vacationCommandExecute_spec _ _ _ _ _ _ _ _ hex
  rcases processVacation_spec _ _ _ _ _ _ _ hp with
    ⟨_, hmsg, hb'⟩ | ⟨hni, hck, hmsg, hb'⟩ | ⟨hni, hck, hmsg, hb'⟩
  · rcases hcase with ⟨hchk, hh⟩ | ⟨hchk, hh⟩
    · rw [hmsg, internMsg_no_marker] at hchk
      exact absurd hchk (by decide)
    · subst hh
      rw [he', hb']
      simp
  · rcases hcase with ⟨hchk, hh⟩ | ⟨hchk, hh⟩
    · subst hh
      rw [he', hb']
      have hne := effDays_ne_zero cfg e.vacation_policy payout days hpd
      refine iff_of_true (by simp) ?_
      simp only
      omega
    · rw [hmsg, succMsgOf_marker] at hchk
      exact absurd hchk (by decide)
  · rcases hcase with ⟨hchk, hh⟩ | ⟨hchk, hh⟩
    · rw [hmsg, failMsgOf_no_marker] at hchk
      exact absurd hchk (by decide)
    · subst hh
      rw [he', hb']
      simp

/-- Witness for C5: a Manager 1-day time-off at balance 25 appends one
transaction and changes the balance to 24. -/
theorem vacation_append_iff_balance_change_witness :
    ([Transaction.mk "Bob" .vacation ((1 : Int) : ℚ) (vacacionProcesadaMsg 24)]
        ≠ ([] : List Transaction))
    ↔ (({ createEmployee defaultConfig "Bob" .manager .salaried none none none none with
            vacation_days := 24 } : Employee).vacation_days
        ≠ (createEmployee defaultConfig "Bob" .manager .salaried none none none none).vacation_days) :=
  vacation_append_iff_balance_change defaultConfig
    (createEmployee defaultConfig "Bob" .manager .salaried none none none none)
    false none [] (vacacionProcesadaMsg 24)
    { createEmployee defaultConfig "Bob" .manager .salaried none none none none with
        vacation_days := 24 }
    [Transaction.mk "Bob" .vacation ((1 : Int) : ℚ) (vacacionProcesadaMsg 24)]
    (by decide) (by rfl)

/-- C10: a 0-day payout request is treated exactly as a request with no day
count at all — the falsy 0 is replaced by the configured payout-days default —
both at the policy level and at the vacation-command level: the executions
with days=0, days=None, and days=payout_days coincide, so the deduction and
the recorded amount are those of a payout-days payout. -/
theorem payout_zero_day_count_defaulted (cfg : Config) (e : Employee)
    (h : List Transaction)
    (hni : e.vacation_policy ≠ .internP) :
    (processVacation cfg e.vacation_policy e.vacation_days true (some 0)
      = processVacation cfg e.vacation_policy e.vacation_days true none)
    ∧ (vacationCommandExecute cfg e true (some 0) h
      = vacationCommandExecute cfg e true none h)
    ∧ (processVacation cfg e.vacation_policy e.vacation_days true (some 0)
      = processVacation cfg e.vacation_policy e.vacation_days true (some cfg.payout_days))
    ∧ (vacationCommandExecute cfg e true (some 0) h
      = vacationCommandExecute cfg e true (some cfg.payout_days) h) := by
  have hA : pyOr (some 0) cfg.payout_days = cfg.payout_days := by
    simp [pyOr]
  have hB : pyOr (some cfg.payout_days) cfg.payout_days = cfg.payout_days := by
    by_cases h0 : cfg.payout_days = 0 <;> simp [pyOr, h0]
  have hC : pyOr none cfg.payout_days = cfg.payout_days := rfl
  refine ⟨?_, ?_, ?_, ?_⟩
  · unfold processVacation
    simp only [hA, hC, if_true, eq_self_iff_true]
  · unfold vacationCommandExecute Employee.requestVacation processVacation
    simp only [hA, hC, if_true, eq_self_iff_true]
  · unfold processVacation
    simp only [hA, hB, if_true, eq_self_iff_true]
  · unfold vacationCommandExecute Employee.requestVacation processVacation
    simp only [hA, hB, if_true, eq_self_iff_true]

/-- Witness for C10: a Manager payout request with days=0 at balance 25. -/
theorem payout_zero_day_count_defaulted_witness :
    (processVacation defaultConfig .managerP 25 true (some 0)
      = processVacation defaultConfig .managerP 25 true none)
    ∧ (vacationCommandExecute defaultConfig
          (createEmployee defaultConfig "Bob" .manager .salaried none none none none)
          true (some 0) []
      = vacationCommandExecute defaultConfig
          (createEmployee defaultConfig "Bob" .manager .salaried none none none none)
          true none [])
    ∧ (processVacation defaultConfig .managerP 25 true (some 0)
      = processVacation defaultConfig .managerP 25 true (some defaultConfig.payout_days))
    ∧ (vacationCommandExecute defaultConfig
          (createEmployee defaultConfig "Bob" .manager .salaried none none none none)
          true (some 0) []
      = vacationCommandExecute defaultConfig
          (createEmployee defaultConfig "Bob" .manager .salaried none none none none)
          true (some defaultConfig.payout_days) []) :=
  payout_zero_day_count_defaulted defaultConfig
    (createEmployee defaultConfig "Bob" .manager .salaried none none none none)
    [] (by decide)
